import Mathlib

/-!
Verification development for the Drive-to-VectorSearch ingestion pipeline
(`functions/ingestion/index.js`).

The pipeline's pure control flow is embedded shallowly: every external call
(Drive listing, Drive download/export, PDF parse, Vertex embedding, index
upsert) is an oracle passed in as a function returning `Except String _`
(an `Except.error` models a thrown/rejected call, the carried string the
error message).  Vectors are an arbitrary type parameter `V` since no claim
inspects vector contents.  JavaScript `null`/`undefined`/non-string values
are modelled with `Option`; text is modelled as `List Char`.
-/

namespace Ingestion

/-- Characters per chunk (`CHUNK_SIZE` in the source). -/
def CHUNK_SIZE : Nat := 1000

/-- Characters of overlap between consecutive chunks (`CHUNK_OVERLAP`). -/
def CHUNK_OVERLAP : Nat := 150

/-- Max vectors per Vertex AI embed request (`EMBEDDING_BATCH_SIZE`). -/
def EMBEDDING_BATCH_SIZE : Nat := 200

/-- Max vectors per Vertex AI upsert request (`UPSERT_BATCH_SIZE`). -/
def UPSERT_BATCH_SIZE : Nat := 100

/-- Parser kind of a supported mime type (`parser: 'text' | 'pdf'`). -/
inductive ParserKind where
  | text
  | pdf
deriving Repr, DecidableEq

/-- One entry of the `SUPPORTED_MIME_TYPES` table. -/
structure MimeConfig where
  /-- `exportMimeType` field, present only for Google Docs. -/
  exportMimeType : Option String
  parserKind : ParserKind
deriving Repr, DecidableEq

/-- The `SUPPORTED_MIME_TYPES` lookup table from the source. -/
def SUPPORTED_MIME_TYPES (mimeType : String) : Option MimeConfig :=
  if mimeType = "application/vnd.google-apps.document" then
    some { exportMimeType := some "text/plain", parserKind := .text }
  else if mimeType = "text/plain" then
    some { exportMimeType := none, parserKind := .text }
  else if mimeType = "text/markdown" then
    some { exportMimeType := none, parserKind := .text }
  else if mimeType = "application/pdf" then
    some { exportMimeType := none, parserKind := .pdf }
  else
    none

/-- A Drive file descriptor `{id, name, mimeType}` as returned by listing. -/
structure DriveFile where
  id : String
  name : String
  mimeType : String
deriving Repr, DecidableEq

/-- Metadata attached to a chunk by `splitText`: `source` (file id),
`name` (file name) and the unique `id` assigned to the chunk. -/
structure ChunkMeta where
  source : String
  name : String
  id : String
deriving Repr, DecidableEq

/-- A LangChain document produced by `splitText`: page content plus metadata. -/
structure Chunk where
  pageContent : List Char
  metadata : ChunkMeta
deriving Repr, DecidableEq

/-- An element of `embedChunks`' output: `{id, embedding, metadata, pageContent}`. -/
structure EmbeddedChunk (V : Type) where
  id : String
  embedding : V
  metadata : ChunkMeta
  pageContent : List Char
deriving Repr, DecidableEq

/-- Fuel-indexed slicing loop: `for (i = 0; i < xs.length; i += B) slice(i, i+B)`.
The fuel argument only makes the recursion structural; with `xs.length` fuel and
`0 < B` it never runs out (each step drops at least one element). -/
def sliceBatchesAux {α : Type} : Nat → Nat → List α → List (List α)
  | 0, _, _ => []
  | _, _, [] => []
  | fuel + 1, B, x :: rest => (x :: rest).take B :: sliceBatchesAux fuel B ((x :: rest).drop B)

/-- The batch decomposition used by both `embedChunks` and `upsertVectors`:
consecutive slices of size `B` (the last one possibly shorter). -/
def sliceBatches {α : Type} (B : Nat) (xs : List α) : List (List α) :=
  sliceBatchesAux xs.length B xs

/-- Modelled from the spec: the `RecursiveCharacterTextSplitter` from the
`langchain` dependency is not part of this repository's sources, so the
splitting step is modelled from the spec's chunker contract (overlapping
windows of `targetSize` characters, consecutive chunks overlapping by
`overlap`, hence a stride of `targetSize - overlap`; text no longer than
`targetSize` stays a single chunk, empty text yields no chunks).  Fuel-indexed
for structural recursion; `text.length` fuel suffices because the stride is
at least 1. -/
def slidingChunksAux : Nat → Nat → Nat → List Char → List (List Char)
  | 0, _, _, _ => []
  | _, _, _, [] => []
  | fuel + 1, size, stride, c :: rest =>
    if (c :: rest).length ≤ size then [c :: rest]
    else (c :: rest).take size :: slidingChunksAux fuel size stride ((c :: rest).drop stride)

/-- Modelled from the spec: deterministic overlapping-window chunking of a
text with chunk size `size` and overlap `overlap` (see `slidingChunksAux`). -/
def slidingChunks (size overlap : Nat) (text : List Char) : List (List Char) :=
  slidingChunksAux text.length size (max 1 (size - overlap)) text

/-- The `splitText(text, file)` helper.  `none` models a `null`/`undefined`/
non-string argument (the `!text || typeof text !== 'string'` guard, which an
empty string also fails).  Each produced chunk receives
`metadata.id = file.id + "_chunk_" + index` and metadata
`{source: file.id, name: file.name}`. -/
def splitText (text : Option (List Char)) (file : DriveFile) : List Chunk :=
  match text with
  | none => []
  | some t =>
    if t.isEmpty then []
    else
      (slidingChunks CHUNK_SIZE CHUNK_OVERLAP t).enum.map fun p =>
        { pageContent := p.2
          metadata :=
            { source := file.id
              name := file.name
              id := file.id ++ "_chunk_" ++ toString p.1 } }

/-- Oracles standing for the external services the pipeline calls.  `V` is
the vector type returned by the embedding service. -/
structure Oracles (V : Type) where
  /-- `drive.files.list` made total over pagination: the full listing result,
  or the error a failed listing call rejects with. -/
  listFiles : Except String (List DriveFile)
  /-- `drive.files.export` / `drive.files.get` with a text response for a
  file; the boolean is whether the export path (Google Doc) is taken.
  `Except.ok none` models a non-string `response.data`. -/
  fetchText : DriveFile → Bool → Except String (Option (List Char))
  /-- `drive.files.get` with an arraybuffer response followed by `pdf(...)`,
  returning the parsed `data.text`; an error models either step throwing. -/
  fetchPdf : DriveFile → Except String (List Char)
  /-- `embeddingsClient.embedDocuments(texts)`: one batch request. -/
  embedDocuments : List (List Char) → Except String (List V)
  /-- `indexEndpointClient.upsertDatapoints(request)`: one batch upsert of
  `(datapointId, featureVector)` pairs. -/
  upsertDatapoints : List (String × V) → Except String Unit

/-- The `listDriveFiles` helper: pagination is already folded into the
oracle; a failing listing call is re-thrown wrapped as
`Failed to list files: <message>`. -/
def listDriveFiles {V : Type} (o : Oracles V) : Except String (List DriveFile) :=
  match o.listFiles with
  | .ok files => .ok files
  | .error e => .error ("Failed to list files: " ++ e)

/-- The `getFileContent(drive, file)` helper: `none` models the JavaScript
`null` returned for an unsupported mime type or when any download/parse step
throws; a non-string text response is coerced to the empty string. -/
def getFileContent {V : Type} (o : Oracles V) (file : DriveFile) : Option (List Char) :=
  match SUPPORTED_MIME_TYPES file.mimeType with
  | none => none
  | some cfg =>
    match cfg.parserKind with
    | .text =>
      match o.fetchText file cfg.exportMimeType.isSome with
      | .error _ => none
      | .ok (some s) => some s
      | .ok none => some []
    | .pdf =>
      match o.fetchPdf file with
      | .error _ => none
      | .ok s => some s

/-- Result of one embedding-loop iteration: the records pushed onto
`embeddedChunks` for one batch.  A failed call, and equally a response whose
length differs from the batch (the mismatch is thrown and caught by the same
handler), contributes nothing; a successful aligned response contributes one
record per chunk, pairing chunk `i` with vector `i`. -/
def embedBatch {V : Type} (o : Oracles V) (batch : List Chunk) : List (EmbeddedChunk V) :=
  match o.embedDocuments (batch.map (·.pageContent)) with
  | .error _ => []
  | .ok vecs =>
    if vecs.length = batch.length then
      (batch.zip vecs).map fun p =>
        { id := p.1.metadata.id
          embedding := p.2
          metadata := p.1.metadata
          pageContent := p.1.pageContent }
    else []

/-- The `embedChunks(chunks, embeddingsClient)` loop, instrumented with the
trace of requests issued: the first component accumulates `embeddedChunks`,
the second records the `batchTexts` argument of each `embedDocuments` call
(one call per loop iteration, issued whether or not it then fails). -/
def embedChunksT {V : Type} (o : Oracles V) (chunks : List Chunk) :
    List (EmbeddedChunk V) × List (List (List Char)) :=
  (sliceBatches EMBEDDING_BATCH_SIZE chunks).foldl
    (fun acc batch =>
      (acc.1 ++ embedBatch o batch, acc.2 ++ [batch.map (·.pageContent)]))
    ([], [])

/-- The value `embedChunks` returns: the accumulated `embeddedChunks` list. -/
def embedChunks {V : Type} (o : Oracles V) (chunks : List Chunk) : List (EmbeddedChunk V) :=
  (embedChunksT o chunks).1

/-- The `upsertVectors(embeddedChunks, config, indexEndpointClient)` loop,
instrumented with the trace of requests issued: the first component is
`upsertedCount` (incremented by the batch length on success only), the second
records the `datapoints` of each `upsertDatapoints` call in order. -/
def upsertVectors {V : Type} (o : Oracles V) (embeddedChunks : List (EmbeddedChunk V)) :
    Nat × List (List (String × V)) :=
  (sliceBatches UPSERT_BATCH_SIZE embeddedChunks).foldl
    (fun acc batch =>
      let datapoints := batch.map fun c => (c.id, c.embedding)
      match o.upsertDatapoints datapoints with
      | .ok _ => (acc.1 + batch.length, acc.2 ++ [datapoints])
      | .error _ => (acc.1, acc.2 ++ [datapoints]))
    (0, [])

/-- The summary object `runIngestion` resolves with.  `chunksEmbedded` and
`status` are `Option`s because the source builds three different object
shapes (`chunksEmbedded` is absent when no chunks were generated; `status`
is absent on the fully successful path). -/
structure RunResult where
  filesProcessed : Nat
  chunksGenerated : Nat
  chunksEmbedded : Option Nat
  status : Option String
deriving Repr, DecidableEq

/-- Loop body of `for (const file of files)`: fetch content, and when it is
truthy (non-`null`, non-empty) split it; a non-empty chunk list is appended
to `allChunks` and bumps `filesProcessed`. -/
def processFileStep {V : Type} (o : Oracles V) (acc : Nat × List Chunk) (file : DriveFile) :
    Nat × List Chunk :=
  match getFileContent o file with
  | none => acc
  | some content =>
    if content.isEmpty then acc
    else
      let chunks := splitText (some content) file
      if chunks.length > 0 then (acc.1 + 1, acc.2 ++ chunks) else acc

/-- The per-document loop of `runIngestion`, accumulating
`(filesProcessed, allChunks)` from `(0, [])`. -/
def processFiles {V : Type} (o : Oracles V) (files : List DriveFile) : Nat × List Chunk :=
  files.foldl (processFileStep o) (0, [])

/-- The processing steps of `runIngestion` (configuration loading and client
construction, which precede them and are out of the pipeline, are assumed
done — the oracles stand for the constructed clients).  A listing failure
propagates; every later stage is total, and the function returns one of the
three summary shapes of the source. -/
def runIngestion {V : Type} (o : Oracles V) : Except String RunResult :=
  match listDriveFiles o with
  | .error e => .error e
  | .ok files =>
    let p := processFiles o files
    let filesProcessed := p.1
    let allChunks := p.2
    if allChunks.length > 0 then
      let embeddedChunks := embedChunks o allChunks
      if embeddedChunks.length > 0 then
        let _ := upsertVectors o embeddedChunks
        .ok
          { filesProcessed := filesProcessed
            chunksGenerated := allChunks.length
            chunksEmbedded := some embeddedChunks.length
            status := none }
      else
        .ok
          { filesProcessed := filesProcessed
            chunksGenerated := allChunks.length
            chunksEmbedded := some 0
            status := some "No chunks embedded" }
    else
      .ok
        { filesProcessed := filesProcessed
          chunksGenerated := 0
          chunksEmbedded := none
          status := some "No chunks generated" }

/-- The HTTP response the Cloud Function sends: status code, the `status`
field of the body, the `message` field, and the `result` field (absent on
the error path). -/
structure HttpResponse where
  statusCode : Nat
  status : String
  message : String
  result : Option RunResult
deriving Repr, DecidableEq

/-- The `runbookIngestionHttp` handler: 200 with `status: 'success'` when
`runIngestion` resolves, 500 with `status: 'error'` when it rejects. -/
def runbookIngestionHttp {V : Type} (o : Oracles V) : HttpResponse :=
  match runIngestion o with
  | .ok r =>
    { statusCode := 200
      status := "success"
      message := "Ingestion completed successfully. Processed " ++ toString r.filesProcessed ++
        " files, generated " ++ toString r.chunksGenerated ++ " chunks, embedded " ++
        toString (r.chunksEmbedded.getD 0) ++ " chunks."
      result := some r }
  | .error e =>
    { statusCode := 500
      status := "error"
      message := "Ingestion failed: " ++ e
      result := none }

/-- Forgets the embedding of an embedded record, recovering the chunk it was
built from. -/
def toChunk {V : Type} (e : EmbeddedChunk V) : Chunk :=
  { pageContent := e.pageContent, metadata := e.metadata }

/-- Boolean success test for an oracle call result. -/
def isOkB {ε α : Type} : Except ε α → Bool
  | .ok _ => true
  | .error _ => false

/-- Whether a file contributes chunks in the per-document loop: its content
resolves and is non-empty. -/
def goodFile {V : Type} (o : Oracles V) (f : DriveFile) : Bool :=
  match getFileContent o f with
  | some c => !c.isEmpty
  | none => false

/-! Concrete fixtures used to instantiate the theorems below. -/

/-- A plain-text file descriptor. -/
def fileW : DriveFile := ⟨"d1", "doc1", "text/plain"⟩

/-- A file descriptor with an unsupported mime type. -/
def fileU : DriveFile := ⟨"u", "img", "image/png"⟩

/-- A file whose download is made to fail below. -/
def fBad : DriveFile := ⟨"f1", "a", "text/plain"⟩

/-- A file whose download succeeds below. -/
def fGood : DriveFile := ⟨"f2", "b", "text/plain"⟩

/-- A one-character chunk. -/
def cW : Chunk := ⟨['x'], ⟨"d", "n", "i"⟩⟩

/-- A concrete embedded record over the trivial vector type. -/
def eW : EmbeddedChunk Unit := ⟨"i", (), ⟨"d", "n", "i"⟩, ['x']⟩

/-- Oracles whose every call succeeds (unit vectors, one per text). -/
def oW : Oracles Unit :=
  { listFiles := .ok []
    fetchText := fun _ _ => .ok (some ['h'])
    fetchPdf := fun _ => .ok []
    embedDocuments := fun ts => .ok (ts.map fun _ => ())
    upsertDatapoints := fun _ => .ok () }

/-- Oracles with an empty corpus listing. -/
def oEmptyList : Oracles Unit := { oW with listFiles := .ok [] }

/-- Oracles whose corpus listing call fails. -/
def oListFail : Oracles Unit := { oW with listFiles := .error "boom" }

/-- Oracles listing two files, the first of which fails to download. -/
def oOneBad : Oracles Unit :=
  { oW with
    listFiles := .ok [fBad, fGood]
    fetchText := fun f _ =>
      if f.id = "f1" then .error "download failed" else .ok (some "hello".data) }

/-- Oracles whose embedding call fails. -/
def oEmbedFail : Oracles Unit := { oW with embedDocuments := fun _ => .error "to" }

/-- Oracles whose upsert call fails. -/
def oUpsertFail : Oracles Unit := { oW with upsertDatapoints := fun _ => .error "unavailable" }

/-- Oracles whose text fetch yields an empty document. -/
def oEmptyContent : Oracles Unit := { oW with fetchText := fun _ _ => .ok (some []) }

/-! Helper lemmas about the batch decomposition. -/

theorem sliceBatchesAux_cons {α : Type} (B n : Nat) (x : α) (rest : List α) :
    sliceBatchesAux (n + 1) B (x :: rest) =
      (x :: rest).take B :: sliceBatchesAux n B ((x :: rest).drop B) := rfl

theorem sliceBatchesAux_join {α : Type} (B : Nat) (hB : 0 < B) :
    ∀ (fuel : Nat) (xs : List α), xs.length ≤ fuel →
      (sliceBatchesAux fuel B xs).flatten = xs := by
  intro fuel
  induction fuel with
  | zero =>
    intro xs h
    have hx : xs = [] := List.eq_nil_of_length_eq_zero (Nat.le_zero.mp h)
    subst hx
    rfl
  | succ n ih =>
    intro xs h
    match xs with
    | [] => rfl
    | x :: rest =>
      have hle : ((x :: rest).drop B).length ≤ n := by
        simp only [List.length_drop, List.length_cons]
        simp only [List.length_cons] at h
        omega
      rw [sliceBatchesAux_cons, List.flatten_cons, ih _ hle,
        List.take_append_drop]

theorem sliceBatchesAux_length {α : Type} (B : Nat) (hB : 0 < B) :
    ∀ (fuel : Nat) (xs : List α), xs.length ≤ fuel →
      (sliceBatchesAux fuel B xs).length = (xs.length + B - 1) / B := by
  intro fuel
  induction fuel with
  | zero =>
    intro xs h
    have hx : xs = [] := List.eq_nil_of_length_eq_zero (Nat.le_zero.mp h)
    subst hx
    simp [sliceBatchesAux, Nat.div_eq_of_lt (by omega : B - 1 < B)]
  | succ n ih =>
    intro xs h
    match xs with
    | [] => simp [sliceBatchesAux, Nat.div_eq_of_lt (by omega : B - 1 < B)]
    | x :: rest =>
      have hle : ((x :: rest).drop B).length ≤ n := by
        simp only [List.length_drop, List.length_cons]
        simp only [List.length_cons] at h
        omega
      rw [sliceBatchesAux_cons]
      simp only [List.length_cons, ih _ hle, List.length_drop]
      rcases le_or_lt (rest.length + 1) B with hcase | hcase
      · have h1 : rest.length + 1 - B + B - 1 = B - 1 := by omega
        have h2 : rest.length + 1 + B - 1 = rest.length + B := by omega
        rw [h1, h2, Nat.add_div_right _ hB,
          Nat.div_eq_of_lt (by omega : B - 1 < B),
          Nat.div_eq_of_lt (by omega : rest.length < B)]
      · have h1 : rest.length + 1 - B + B - 1 = rest.length := by omega
        have h2 : rest.length + 1 + B - 1 = rest.length + B := by omega
        rw [h1, h2, Nat.add_div_right _ hB]

theorem sliceBatchesAux_mem_length {α : Type} (B : Nat) :
    ∀ (fuel : Nat) (xs : List α) (b : List α),
      b ∈ sliceBatchesAux fuel B xs → b.length ≤ B := by
  intro fuel
  induction fuel with
  | zero => intro xs b hb; simp [sliceBatchesAux] at hb
  | succ n ih =>
    intro xs b hb
    match xs with
    | [] => simp [sliceBatchesAux] at hb
    | x :: rest =>
      rw [sliceBatchesAux_cons] at hb
      rcases List.mem_cons.mp hb with hb | hb
      · subst hb
        simp only [List.length_take]
        exact Nat.min_le_left _ _
      · exact ih _ _ hb

theorem sliceBatches_join {α : Type} (B : Nat) (hB : 0 < B) (xs : List α) :
    (sliceBatches B xs).flatten = xs :=
  sliceBatchesAux_join B hB xs.length xs (Nat.le_refl _)

theorem sliceBatches_length {α : Type} (B : Nat) (hB : 0 < B) (xs : List α) :
    (sliceBatches B xs).length = (xs.length + B - 1) / B :=
  sliceBatchesAux_length B hB xs.length xs (Nat.le_refl _)

theorem sliceBatches_mem_length {α : Type} (B : Nat) (xs : List α) (b : List α)
    (hb : b ∈ sliceBatches B xs) : b.length ≤ B :=
  sliceBatchesAux_mem_length B xs.length xs b hb

/-! Helper lemmas about the embedding and upsert loops. -/

theorem embedChunksT_foldl {V : Type} (o : Oracles V) :
    ∀ (l : List (List Chunk)) (a : List (EmbeddedChunk V)) (c : List (List (List Char))),
      l.foldl (fun acc batch => (acc.1 ++ embedBatch o batch, acc.2 ++ [batch.map (·.pageContent)]))
        (a, c) =
      (a ++ (l.map (embedBatch o)).flatten, c ++ l.map (List.map Chunk.pageContent)) := by
  intro l
  induction l with
  | nil => intro a c; simp
  | cons x xs ih =>
    intro a c
    simp only [List.foldl_cons, ih, List.map_cons, List.flatten_cons]
    simp [List.append_assoc]

theorem embedChunksT_eq {V : Type} (o : Oracles V) (chunks : List Chunk) :
    embedChunksT o chunks =
      (((sliceBatches EMBEDDING_BATCH_SIZE chunks).map (embedBatch o)).flatten,
        (sliceBatches EMBEDDING_BATCH_SIZE chunks).map (List.map Chunk.pageContent)) := by
  unfold embedChunksT
  rw [embedChunksT_foldl]
  simp

theorem embedChunks_eq_flatten {V : Type} (o : Oracles V) (chunks : List Chunk) :
    embedChunks o chunks = ((sliceBatches EMBEDDING_BATCH_SIZE chunks).map (embedBatch o)).flatten := by
  unfold embedChunks
  rw [embedChunksT_eq]

theorem upsertVectors_foldl {V : Type} (o : Oracles V) :
    ∀ (l : List (List (EmbeddedChunk V))) (n : Nat) (t : List (List (String × V))),
      l.foldl
        (fun acc batch =>
          let datapoints := batch.map fun c => (c.id, c.embedding)
          match o.upsertDatapoints datapoints with
          | .ok _ => (acc.1 + batch.length, acc.2 ++ [datapoints])
          | .error _ => (acc.1, acc.2 ++ [datapoints]))
        (n, t) =
      (n + (((l.filter fun b =>
            isOkB (o.upsertDatapoints (b.map fun c => (c.id, c.embedding)))).map
              List.length).sum),
        t ++ l.map fun b => b.map fun c => (c.id, c.embedding)) := by
  intro l
  induction l with
  | nil => intro n t; simp
  | cons x xs ih =>
    intro n t
    simp only [List.foldl_cons]
    rcases hx : o.upsertDatapoints (x.map fun c => (c.id, c.embedding)) with e | u
    · simp only [hx, ih, List.filter_cons, isOkB, hx]
      simp [List.filter_cons, isOkB, hx, List.append_assoc]
    · simp only [hx, ih]
      simp [List.filter_cons, isOkB, hx, List.append_assoc, Nat.add_assoc]

theorem upsertVectors_eq {V : Type} (o : Oracles V) (embeddedChunks : List (EmbeddedChunk V)) :
    upsertVectors o embeddedChunks =
      ((((sliceBatches UPSERT_BATCH_SIZE embeddedChunks).filter fun b =>
          isOkB (o.upsertDatapoints (b.map fun c => (c.id, c.embedding)))).map
            List.length).sum,
        (sliceBatches UPSERT_BATCH_SIZE embeddedChunks).map fun b =>
          b.map fun c => (c.id, c.embedding)) := by
  unfold upsertVectors
  rw [upsertVectors_foldl]
  simp

/-! Helper lemmas about the chunking step. -/

theorem slidingChunksAux_short (size stride fuel : Nat) (t : List Char)
    (ht : t ≠ []) (hf : 1 ≤ fuel) (hlen : t.length ≤ size) :
    slidingChunksAux fuel size stride t = [t] := by
  match fuel, t with
  | 0, _ => omega
  | n + 1, [] => exact absurd rfl ht
  | n + 1, c :: rest =>
    simp only [slidingChunksAux, if_pos hlen]

theorem slidingChunksAux_pos (size stride fuel : Nat) (t : List Char)
    (ht : t ≠ []) (hf : 1 ≤ fuel) :
    0 < (slidingChunksAux fuel size stride t).length := by
  match fuel, t with
  | 0, _ => omega
  | n + 1, [] => exact absurd rfl ht
  | n + 1, c :: rest =>
    simp only [slidingChunksAux]
    split
    · simp
    · simp

theorem splitText_length_pos (t : List Char) (ht : t ≠ []) (file : DriveFile) :
    0 < (splitText (some t) file).length := by
  have hne : t.isEmpty = false := by
    cases t with
    | nil => exact absurd rfl ht
    | cons c rest => rfl
  simp only [splitText, hne, Bool.false_eq_true, if_false, List.length_map,
    List.enum_length]
  exact slidingChunksAux_pos _ _ _ t ht (by
    cases t with
    | nil => exact absurd rfl ht
    | cons c rest => simp)

theorem splitText_single (t : List Char) (file : DriveFile)
    (ht : t ≠ []) (hlen : t.length ≤ CHUNK_SIZE) :
    splitText (some t) file =
      [{ pageContent := t
         metadata :=
          { source := file.id
            name := file.name
            id := file.id ++ "_chunk_" ++ toString 0 } }] := by
  have hne : t.isEmpty = false := by
    cases t with
    | nil => exact absurd rfl ht
    | cons c rest => rfl
  have hf : 1 ≤ t.length := by
    cases t with
    | nil => exact absurd rfl ht
    | cons c rest => simp
  simp only [splitText, hne, Bool.false_eq_true, if_false, slidingChunks,
    slidingChunksAux_short CHUNK_SIZE _ t.length t ht hf hlen]
  rfl

/-! Helper lemmas about the per-document loop. -/

theorem processFileStep_fst {V : Type} (o : Oracles V) (acc : Nat × List Chunk)
    (f : DriveFile) :
    (processFileStep o acc f).1 = acc.1 + (if goodFile o f then 1 else 0) := by
  unfold processFileStep goodFile
  rcases hc : getFileContent o f with _ | c
  · simp
  · rcases hce : c.isEmpty with _ | _
    · have hne : c ≠ [] := by
        cases c with
        | nil => simp at hce
        | cons a rest => simp
      have hpos := splitText_length_pos c hne f
      simp [hce, hpos]
    · have : c = [] := by
        cases c with
        | nil => rfl
        | cons a rest => simp at hce
      subst this
      simp

theorem processFiles_fst {V : Type} (o : Oracles V) :
    ∀ (files : List DriveFile) (acc : Nat × List Chunk),
      (files.foldl (processFileStep o) acc).1 = acc.1 + files.countP (goodFile o) := by
  intro files
  induction files with
  | nil => intro acc; simp
  | cons f fs ih =>
    intro acc
    simp only [List.foldl_cons, ih, processFileStep_fst, List.countP_cons]
    by_cases h : goodFile o f
    · simp [h]
      omega
    · simp [h]

/-! Helper lemmas about one embedding batch. -/

theorem embedBatch_error {V : Type} (o : Oracles V) (batch : List Chunk) (e : String)
    (h : o.embedDocuments (batch.map (·.pageContent)) = .error e) :
    embedBatch o batch = [] := by
  unfold embedBatch
  rw [h]

theorem embedBatch_mismatch {V : Type} (o : Oracles V) (batch : List Chunk) (vecs : List V)
    (h : o.embedDocuments (batch.map (·.pageContent)) = .ok vecs)
    (hlen : vecs.length ≠ batch.length) :
    embedBatch o batch = [] := by
  unfold embedBatch
  rw [h]
  simp [hlen]

theorem embedBatch_ok {V : Type} (o : Oracles V) (batch : List Chunk) (vecs : List V)
    (h : o.embedDocuments (batch.map (·.pageContent)) = .ok vecs)
    (hlen : vecs.length = batch.length) :
    embedBatch o batch =
      (batch.zip vecs).map fun p =>
        { id := p.1.metadata.id
          embedding := p.2
          metadata := p.1.metadata
          pageContent := p.1.pageContent } := by
  unfold embedBatch
  rw [h]
  simp [hlen]

theorem embedBatch_toChunk {V : Type} (o : Oracles V) (batch : List Chunk) :
    (embedBatch o batch).map toChunk = [] ∨ (embedBatch o batch).map toChunk = batch := by
  rcases h : o.embedDocuments (batch.map (·.pageContent)) with e | vecs
  · left
    rw [embedBatch_error o batch e h]
    rfl
  · by_cases hlen : vecs.length = batch.length
    · right
      rw [embedBatch_ok o batch vecs h hlen, List.map_map]
      have hcomp :
          (toChunk ∘ fun p : Chunk × V =>
            ({ id := p.1.metadata.id
               embedding := p.2
               metadata := p.1.metadata
               pageContent := p.1.pageContent } : EmbeddedChunk V)) = Prod.fst := by
        funext p
        rfl
      rw [hcomp]
      exact List.map_fst_zip batch vecs (by omega)
    · left
      rw [embedBatch_mismatch o batch vecs h hlen]
      rfl

theorem embedBatch_id {V : Type} (o : Oracles V) (batch : List Chunk)
    (r : EmbeddedChunk V) (hr : r ∈ embedBatch o batch) : r.id = r.metadata.id := by
  unfold embedBatch at hr
  split at hr
  · simp at hr
  · split at hr
    · rcases List.mem_map.mp hr with ⟨p, _, hp⟩
      subst hp
      rfl
    · simp at hr

theorem flatten_map_sublist {α : Type} (g : List α → List α) :
    ∀ (l : List (List α)), (∀ b ∈ l, (g b).Sublist b) →
      (l.map g).flatten.Sublist l.flatten := by
  intro l
  induction l with
  | nil => intro _; simp
  | cons x xs ih =>
    intro h
    simp only [List.map_cons, List.flatten_cons]
    exact (h x (by simp)).append (ih fun b hb => h b (by simp [hb]))

theorem embedChunks_toChunk_sublist {V : Type} (o : Oracles V) (chunks : List Chunk) :
    ((embedChunks o chunks).map toChunk).Sublist chunks := by
  rw [embedChunks_eq_flatten, List.map_flatten, List.map_map]
  have hsub : ∀ b ∈ sliceBatches EMBEDDING_BATCH_SIZE chunks,
      ((List.map toChunk ∘ embedBatch o) b).Sublist b := by
    intro b _
    rcases embedBatch_toChunk o b with hc | hc
    · simp only [Function.comp_apply, hc]
      exact List.nil_sublist b
    · simp only [Function.comp_apply, hc]
      exact List.Sublist.refl b
  have hmain := flatten_map_sublist _ _ hsub
  rw [sliceBatches_join EMBEDDING_BATCH_SIZE (by norm_num [EMBEDDING_BATCH_SIZE]) chunks] at hmain
  exact hmain

theorem embedChunks_length_le {V : Type} (o : Oracles V) (chunks : List Chunk) :
    (embedChunks o chunks).length ≤ chunks.length := by
  have h := (embedChunks_toChunk_sublist o chunks).length_le
  simpa using h

/-! Helper lemmas about `runIngestion`. -/

theorem runIngestion_error_eq {V : Type} (o : Oracles V) (e : String)
    (h : o.listFiles = .error e) :
    runIngestion o = .error ("Failed to list files: " ++ e) := by
  unfold runIngestion listDriveFiles
  rw [h]

theorem runIngestion_ok_eq {V : Type} (o : Oracles V) (files : List DriveFile)
    (h : o.listFiles = .ok files) :
    runIngestion o =
      (if (processFiles o files).2.length > 0 then
        if (embedChunks o (processFiles o files).2).length > 0 then
          .ok
            { filesProcessed := (processFiles o files).1
              chunksGenerated := (processFiles o files).2.length
              chunksEmbedded := some (embedChunks o (processFiles o files).2).length
              status := none }
        else
          .ok
            { filesProcessed := (processFiles o files).1
              chunksGenerated := (processFiles o files).2.length
              chunksEmbedded := some 0
              status := some "No chunks embedded" }
      else
        .ok
          { filesProcessed := (processFiles o files).1
            chunksGenerated := 0
            chunksEmbedded := none
            status := some "No chunks generated" }) := by
  unfold runIngestion listDriveFiles
  rw [h]

theorem runIngestion_listing_ok {V : Type} (o : Oracles V) (files : List DriveFile)
    (h : o.listFiles = .ok files) :
    ∃ r, runIngestion o = .ok r ∧
      r.filesProcessed = (processFiles o files).1 ∧
      r.chunksGenerated = (processFiles o files).2.length ∧
      (r.chunksEmbedded = none ∨
        r.chunksEmbedded = some (embedChunks o (processFiles o files).2).length ∨
        r.chunksEmbedded = some 0) := by
  rw [runIngestion_ok_eq o files h]
  by_cases h1 : (processFiles o files).2.length > 0
  · by_cases h2 : (embedChunks o (processFiles o files).2).length > 0
    · rw [if_pos h1, if_pos h2]
      exact ⟨_, rfl, rfl, rfl, Or.inr (Or.inl rfl)⟩
    · rw [if_pos h1, if_neg h2]
      exact ⟨_, rfl, rfl, rfl, Or.inr (Or.inr rfl)⟩
  · rw [if_neg h1]
    refine ⟨_, rfl, rfl, ?_, Or.inl rfl⟩
    show (0 : Nat) = (processFiles o files).2.length
    omega

/-! Claim theorems. -/

/-- C2: for every list of chunks the embedder partitions it into exactly
`ceil(N/B)` batches with `B = EMBEDDING_BATCH_SIZE = 200` (in `Nat`
arithmetic, `(N + B - 1) / B`), issues exactly one `embedDocuments` call per
batch (the request trace is precisely the list of batch texts), every batch
has size at most `B`, and the concatenation of the batches is the input list
in order. -/
theorem embedder_batching {V : Type} (o : Oracles V) (chunks : List Chunk) :
    EMBEDDING_BATCH_SIZE = 200 ∧
    (embedChunksT o chunks).2 =
      (sliceBatches EMBEDDING_BATCH_SIZE chunks).map (List.map Chunk.pageContent) ∧
    (embedChunksT o chunks).2.length =
      (chunks.length + EMBEDDING_BATCH_SIZE - 1) / EMBEDDING_BATCH_SIZE ∧
    (∀ req ∈ (embedChunksT o chunks).2, req.length ≤ EMBEDDING_BATCH_SIZE) ∧
    (sliceBatches EMBEDDING_BATCH_SIZE chunks).flatten = chunks := by
  have hB : 0 < EMBEDDING_BATCH_SIZE := by norm_num [EMBEDDING_BATCH_SIZE]
  have htrace : (embedChunksT o chunks).2 =
      (sliceBatches EMBEDDING_BATCH_SIZE chunks).map (List.map Chunk.pageContent) := by
    rw [embedChunksT_eq]
  refine ⟨rfl, htrace, ?_, ?_, sliceBatches_join _ hB chunks⟩
  · rw [htrace, List.length_map, sliceBatches_length _ hB]
  · intro req hreq
    rw [htrace] at hreq
    rcases List.mem_map.mp hreq with ⟨b, hb, hbe⟩
    subst hbe
    rw [List.length_map]
    exact sliceBatches_mem_length _ chunks b hb

/-- Witness for C2: on a one-chunk input, the single issued request is within
the batch bound and the batches concatenate back to the input. -/
theorem embedder_batching_witness :
    [cW.pageContent].length ≤ EMBEDDING_BATCH_SIZE ∧
    (sliceBatches EMBEDDING_BATCH_SIZE [cW]).flatten = [cW] :=
  ⟨(embedder_batching oW [cW]).2.2.2.1 [cW.pageContent] (by decide),
    (embedder_batching oW [cW]).2.2.2.2⟩

/-- C3: chunking is deterministic — `splitText` is a pure function, so two
invocations on the same `(text, file)` agree — and the chunk id at ordinal
`i` always equals `file.id ++ "_chunk_" ++ i`. -/
theorem chunking_deterministic (text : Option (List Char)) (file : DriveFile) :
    splitText text file = splitText text file ∧
    ∀ (i : Nat) (h : i < (splitText text file).length),
      ((splitText text file).get ⟨i, h⟩).metadata.id =
        file.id ++ "_chunk_" ++ toString i := by
  refine ⟨rfl, ?_⟩
  intro i h
  match text with
  | none => simp [splitText] at h
  | some t =>
    by_cases hne : t.isEmpty
    · have hs : splitText (some t) file = [] := by
        simp only [splitText]
        rw [if_pos hne]
      rw [hs] at h
      simp at h
    · have hs : splitText (some t) file =
          (slidingChunks CHUNK_SIZE CHUNK_OVERLAP t).enum.map fun p =>
            { pageContent := p.2
              metadata :=
                { source := file.id
                  name := file.name
                  id := file.id ++ "_chunk_" ++ toString p.1 } } := by
        simp only [splitText]
        rw [if_neg hne]
      rw [List.get_eq_getElem, List.getElem_of_eq hs]
      simp [List.getElem_map, List.getElem_enum]

/-- Witness for C3: the single chunk of a one-character document has chunk
id `"d1_chunk_0"`. -/
theorem chunking_deterministic_witness :
    ((splitText (some ['h']) fileW).get ⟨0, by decide⟩).metadata.id =
      fileW.id ++ "_chunk_" ++ toString 0 :=
  (chunking_deterministic (some ['h']) fileW).2 0 (by decide)

/-- C4: a batch whose embedding call fails — by error or by a response whose
length differs from the batch — contributes nothing to the embedded output;
no exception escapes the stage and every batch is still processed (the output
is the concatenation of every batch's individual outcome); chunks of a
successful batch receive the vector at their position in the response. -/
theorem embedding_batch_failure_isolated {V : Type} (o : Oracles V) (chunks : List Chunk) :
    embedChunks o chunks =
      ((sliceBatches EMBEDDING_BATCH_SIZE chunks).map (embedBatch o)).flatten ∧
    (∀ (batch : List Chunk) (e : String),
      o.embedDocuments (batch.map (·.pageContent)) = .error e →
      embedBatch o batch = []) ∧
    (∀ (batch : List Chunk) (vecs : List V),
      o.embedDocuments (batch.map (·.pageContent)) = .ok vecs →
      vecs.length ≠ batch.length → embedBatch o batch = []) ∧
    (∀ (batch : List Chunk) (vecs : List V),
      o.embedDocuments (batch.map (·.pageContent)) = .ok vecs →
      vecs.length = batch.length →
      (embedBatch o batch).length = batch.length ∧
      ∀ (i : Nat) (h1 : i < (embedBatch o batch).length) (h2 : i < batch.length)
        (h3 : i < vecs.length),
        ((embedBatch o batch).get ⟨i, h1⟩).id = (batch.get ⟨i, h2⟩).metadata.id ∧
        ((embedBatch o batch).get ⟨i, h1⟩).embedding = vecs.get ⟨i, h3⟩ ∧
        ((embedBatch o batch).get ⟨i, h1⟩).pageContent = (batch.get ⟨i, h2⟩).pageContent) := by
  refine ⟨embedChunks_eq_flatten o chunks, embedBatch_error o, embedBatch_mismatch o, ?_⟩
  intro batch vecs h hlen
  have hb := embedBatch_ok o batch vecs h hlen
  constructor
  · rw [hb, List.length_map, List.length_zip]
    omega
  · intro i h1 h2 h3
    refine ⟨?_, ?_, ?_⟩
    · simp only [List.get_eq_getElem]
      rw [List.getElem_of_eq hb]
      simp [List.getElem_map, List.getElem_zip]
    · simp only [List.get_eq_getElem]
      rw [List.getElem_of_eq hb]
      simp [List.getElem_map, List.getElem_zip]
    · simp only [List.get_eq_getElem]
      rw [List.getElem_of_eq hb]
      simp [List.getElem_map, List.getElem_zip]

/-- Witness for C4: a failing embedding call leaves its batch out, and a
successful aligned call keeps the whole batch. -/
theorem embedding_batch_failure_isolated_witness :
    embedBatch oEmbedFail [cW] = [] ∧ (embedBatch oW [cW]).length = [cW].length :=
  ⟨(embedding_batch_failure_isolated oEmbedFail [cW]).2.1 [cW] "to" rfl,
    ((embedding_batch_failure_isolated oW [cW]).2.2.2 [cW] [()] rfl rfl).1⟩

/-- C8: chunking empty (or absent/non-string) text yields zero chunks without
any error, and the per-document loop leaves its state unchanged on such a
document (the run continues); non-empty text no longer than `CHUNK_SIZE`
yields exactly one chunk holding the whole text. -/
theorem chunking_edge_cases {V : Type} (o : Oracles V) (file fileE : DriveFile)
    (t : List Char) (acc : Nat × List Chunk) :
    splitText none file = [] ∧
    splitText (some []) file = [] ∧
    (t ≠ [] → t.length ≤ CHUNK_SIZE →
      splitText (some t) file =
        [{ pageContent := t
           metadata :=
            { source := file.id
              name := file.name
              id := file.id ++ "_chunk_" ++ toString 0 } }]) ∧
    (getFileContent o fileE = some [] → processFileStep o acc fileE = acc) := by
  refine ⟨rfl, rfl, fun ht hlen => splitText_single t file ht hlen, ?_⟩
  intro hc
  unfold processFileStep
  rw [hc]
  rfl

/-- Witness for C8: a two-character document becomes one chunk holding the
whole text, and an empty document leaves the loop state unchanged. -/
theorem chunking_edge_cases_witness :
    splitText (some ['h', 'i']) fileW =
      [{ pageContent := ['h', 'i']
         metadata :=
          { source := fileW.id
            name := fileW.name
            id := fileW.id ++ "_chunk_" ++ toString 0 } }] ∧
    processFileStep oEmptyContent ((0, []) : Nat × List Chunk) fileW = (0, []) :=
  ⟨(chunking_edge_cases oEmptyContent fileW fileW ['h', 'i'] (0, [])).2.2.1
      (by decide) (by decide),
    (chunking_edge_cases oEmptyContent fileW fileW ['h', 'i'] (0, [])).2.2.2 rfl⟩

/-- C9: the embedded output is an order-preserving, batch-granular
subsequence of the input chunk list; its length is bounded by the input
length, every record keeps its source chunk's id, and in every run summary
with a recorded `chunksEmbedded` that count is at most `chunksGenerated`. -/
theorem embedded_output_subsequence {V : Type} (o : Oracles V) (chunks : List Chunk) :
    ((embedChunks o chunks).map toChunk).Sublist chunks ∧
    (embedChunks o chunks).length ≤ chunks.length ∧
    (∀ r ∈ embedChunks o chunks, r.id = r.metadata.id) ∧
    (∀ (files : List DriveFile) (r : RunResult) (n : Nat),
      o.listFiles = .ok files → runIngestion o = .ok r →
      r.chunksEmbedded = some n → n ≤ r.chunksGenerated) := by
  refine ⟨embedChunks_toChunk_sublist o chunks, embedChunks_length_le o chunks, ?_, ?_⟩
  · intro r hr
    rw [embedChunks_eq_flatten] at hr
    rcases List.mem_flatten.mp hr with ⟨l, hl, hrl⟩
    rcases List.mem_map.mp hl with ⟨b, _, hbe⟩
    subst hbe
    exact embedBatch_id o b r hrl
  · intro files r n hlist hrun hemb
    rcases runIngestion_listing_ok o files hlist with ⟨r', hr', _, hcg, hce⟩
    rw [hrun] at hr'
    injection hr' with hr'
    subst hr'
    rcases hce with hce | hce | hce
    · rw [hce] at hemb
      cases hemb
    · rw [hce] at hemb
      injection hemb with hn
      subst hn
      rw [hcg]
      exact embedChunks_length_le o _
    · rw [hce] at hemb
      injection hemb with hn
      subst hn
      exact Nat.zero_le _

/-- Witness for C9: the embedded record of a successful one-chunk run keeps
its chunk id, and a concrete run reports `chunksEmbedded = 1 ≤ 1 =
chunksGenerated`. -/
theorem embedded_output_subsequence_witness :
    eW.id = eW.metadata.id ∧
    (1 : Nat) ≤ (RunResult.mk 1 1 (some 1) none).chunksGenerated :=
  ⟨(embedded_output_subsequence oW [cW]).2.2.1 eW (by decide),
    (embedded_output_subsequence oOneBad []).2.2.2 [fBad, fGood]
      (RunResult.mk 1 1 (some 1) none) 1 rfl (by rfl) rfl⟩

/-- C10: per-document processing is total — `getFileContent` yields `none`
(never an exception) on an unsupported content type or a failing
download/parse call, `splitText` yields `[]` on absent or empty content, and
a document whose content resolution fails leaves the loop state unchanged,
so no single document's failure escapes the per-document loop. -/
theorem per_document_totality {V : Type} (o : Oracles V) (file : DriveFile)
    (acc : Nat × List Chunk) :
    (SUPPORTED_MIME_TYPES file.mimeType = none → getFileContent o file = none) ∧
    (∀ (cfg : MimeConfig) (e : String),
      SUPPORTED_MIME_TYPES file.mimeType = some cfg → cfg.parserKind = .text →
      o.fetchText file cfg.exportMimeType.isSome = .error e →
      getFileContent o file = none) ∧
    (∀ (cfg : MimeConfig) (e : String),
      SUPPORTED_MIME_TYPES file.mimeType = some cfg → cfg.parserKind = .pdf →
      o.fetchPdf file = .error e →
      getFileContent o file = none) ∧
    (∀ t, t = none ∨ t = some ([] : List Char) → splitText t file = []) ∧
    (getFileContent o file = none → processFileStep o acc file = acc) := by
  refine ⟨?_, ?_, ?_, ?_, ?_⟩
  · intro h
    unfold getFileContent
    rw [h]
  · intro cfg e hcfg hkind hfetch
    simp only [getFileContent, hcfg, hkind, hfetch]
  · intro cfg e hcfg hkind hfetch
    simp only [getFileContent, hcfg, hkind, hfetch]
  · intro t ht
    rcases ht with rfl | rfl
    · rfl
    · rfl
  · intro h
    unfold processFileStep
    rw [h]

/-- Witness for C10: an unsupported content type resolves to `none` and the
loop state is unchanged for that document. -/
theorem per_document_totality_witness :
    getFileContent oW fileU = none ∧
    processFileStep oW ((0, []) : Nat × List Chunk) fileU = (0, []) :=
  ⟨(per_document_totality oW fileU (0, [])).1 rfl,
    (per_document_totality oW fileU (0, [])).2.2.2.2
      ((per_document_totality oW fileU (0, [])).1 rfl)⟩

/-- C1 (amended): when listing succeeds and extraction fails for exactly one
of the discovered documents while every other document yields non-empty
text, the run does not abort and the summary's `filesProcessed` is `K - 1`;
the extraction error is only logged, not recorded in the returned summary
(which carries no error list — see the counterexample). -/
theorem extraction_failure_isolated {V : Type} (o : Oracles V)
    (pre post : List DriveFile) (fbad : DriveFile)
    (hlist : o.listFiles = .ok (pre ++ fbad :: post))
    (hbad : getFileContent o fbad = none)
    (hgood : ∀ f ∈ pre ++ post, ∃ c, getFileContent o f = some c ∧ c ≠ []) :
    ∃ r, runIngestion o = .ok r ∧
      r.filesProcessed = (pre ++ fbad :: post).length - 1 := by
  rcases runIngestion_listing_ok o (pre ++ fbad :: post) hlist with ⟨r, hr, hfp, _, _⟩
  refine ⟨r, hr, ?_⟩
  rw [hfp]
  unfold processFiles
  rw [processFiles_fst]
  have hbadP : goodFile o fbad = false := by
    unfold goodFile
    rw [hbad]
  have hgoodP : ∀ f ∈ pre ++ post, goodFile o f = true := by
    intro f hf
    rcases hgood f hf with ⟨c, hc, hcne⟩
    unfold goodFile
    rw [hc]
    simp [hcne]
  have hpre : pre.countP (goodFile o) = pre.length :=
    List.countP_eq_length.mpr fun a ha => hgoodP a (List.mem_append_left _ ha)
  have hpost : post.countP (goodFile o) = post.length :=
    List.countP_eq_length.mpr fun a ha => hgoodP a (List.mem_append_right _ ha)
  rw [List.countP_append, List.countP_cons, hpre, hpost, hbadP]
  simp [List.length_append]

/-- Witness for C1's amended theorem: of two listed documents, the first
fails to download; the run succeeds with `filesProcessed = 1`. -/
theorem extraction_failure_isolated_witness :
    ∃ r, runIngestion oOneBad = .ok r ∧
      r.filesProcessed = (([] : List DriveFile) ++ fBad :: [fGood]).length - 1 :=
  extraction_failure_isolated oOneBad [] [fGood] fBad rfl rfl (by
    intro f hf
    simp only [List.nil_append, List.mem_singleton] at hf
    subst hf
    exact ⟨"hello".data, rfl, by decide⟩)

/-- Counterexample for C1: a concrete run in which extraction fails for 1 of
2 documents resolves with the complete summary
`{filesProcessed := 1, chunksGenerated := 1, chunksEmbedded := 1}` and the
complete HTTP response shown — no extraction error is recorded anywhere in
the run summary (the summary has no error list at all), contradicting the
claim that exactly one extraction error is recorded in it. -/
theorem extraction_error_not_recorded_cex :
    runIngestion oOneBad = .ok (RunResult.mk 1 1 (some 1) none) ∧
    runbookIngestionHttp oOneBad =
      HttpResponse.mk 200 "success"
        "Ingestion completed successfully. Processed 1 files, generated 1 chunks, embedded 1 chunks."
        (some (RunResult.mk 1 1 (some 1) none)) :=
  ⟨by rfl, by rfl⟩

/-- C5 (amended): each upsert batch is attempted exactly once — the request
trace is precisely one `upsertDatapoints` call per batch, with no retry of a
failed batch — a failed batch is skipped (logged only), the loop proceeds to
every remaining batch, and `upsertedCount` equals the total size of the
batches whose single attempt succeeded. -/
theorem upsert_no_retry_single_attempt {V : Type} (o : Oracles V)
    (embedded : List (EmbeddedChunk V)) :
    (upsertVectors o embedded).2 =
      (sliceBatches UPSERT_BATCH_SIZE embedded).map
        (fun b => b.map fun c => (c.id, c.embedding)) ∧
    (upsertVectors o embedded).1 =
      (((sliceBatches UPSERT_BATCH_SIZE embedded).filter fun b =>
          isOkB (o.upsertDatapoints (b.map fun c => (c.id, c.embedding)))).map
            List.length).sum := by
  rw [upsertVectors_eq]
  exact ⟨rfl, rfl⟩

/-- Counterexample for C5: a batch whose upsert call fails receives exactly
one attempt (the whole request trace is that single call) and is counted as
zero successes — it is never retried, contradicting the claimed
retry-with-backoff behaviour. -/
theorem upsert_retry_cex :
    (upsertVectors oUpsertFail [eW]).2 = [[(eW.id, eW.embedding)]] ∧
    (upsertVectors oUpsertFail [eW]).1 = 0 ∧
    ¬2 ≤ (upsertVectors oUpsertFail [eW]).2.length :=
  ⟨by rfl, by rfl, by decide⟩

/-- C6: a failed corpus listing aborts the run — `runIngestion` rejects with
the wrapped listing error, a value depending on nothing but that error (so
no later stage ran), and the trigger answers HTTP 500 — while a successful
listing always produces a resolved run and HTTP 200 whatever the other
oracles do, so no other pipeline-stage failure propagates. -/
theorem listing_failure_fatal {V : Type} (o : Oracles V) :
    (∀ e, o.listFiles = .error e →
      runIngestion o = .error ("Failed to list files: " ++ e) ∧
      (runbookIngestionHttp o).statusCode = 500 ∧
      (runbookIngestionHttp o).status = "error") ∧
    (∀ files, o.listFiles = .ok files →
      ∃ r, runIngestion o = .ok r ∧
        (runbookIngestionHttp o).statusCode = 200 ∧
        (runbookIngestionHttp o).status = "success") := by
  constructor
  · intro e he
    have hrun := runIngestion_error_eq o e he
    refine ⟨hrun, ?_, ?_⟩
    · unfold runbookIngestionHttp
      rw [hrun]
    · unfold runbookIngestionHttp
      rw [hrun]
  · intro files hf
    rcases runIngestion_listing_ok o files hf with ⟨r, hr, _⟩
    refine ⟨r, hr, ?_, ?_⟩
    · unfold runbookIngestionHttp
      rw [hr]
    · unfold runbookIngestionHttp
      rw [hr]

/-- Witness for C6: a failing listing rejects the concrete run with the
wrapped message, and an empty successful listing resolves with HTTP 200. -/
theorem listing_failure_fatal_witness :
    runIngestion oListFail = .error ("Failed to list files: " ++ "boom") ∧
    (∃ r, runIngestion oEmptyList = .ok r ∧
      (runbookIngestionHttp oEmptyList).statusCode = 200 ∧
      (runbookIngestionHttp oEmptyList).status = "success") :=
  ⟨((listing_failure_fatal oListFail).1 "boom" rfl).1,
    (listing_failure_fatal oEmptyList).2 [] rfl⟩

/-- C7 (amended): the trigger's response is either HTTP 200 with
`status = "success"` and a result summary present, or HTTP 500 with
`status = "error"` and no result; the status values `"completed"`,
`"completed_with_errors"` and `"failed"` never occur, and the summary
carries no `recordsUpserted` count and no errors list (see the
counterexample for a complete concrete response). -/
theorem trigger_response_shape {V : Type} (o : Oracles V) :
    ((runbookIngestionHttp o).statusCode = 200 ∧
      (runbookIngestionHttp o).status = "success" ∧
      (runbookIngestionHttp o).result.isSome = true) ∨
    ((runbookIngestionHttp o).statusCode = 500 ∧
      (runbookIngestionHttp o).status = "error" ∧
      (runbookIngestionHttp o).result = none) := by
  rcases h : runIngestion o with e | r
  · right
    simp [runbookIngestionHttp, h]
  · left
    simp [runbookIngestionHttp, h]

/-- Counterexample for C7: a concrete run's response has `status` equal to
`"success"` — not one of the three values the claim allows — and its complete
body (shown in full) carries `filesProcessed`, `chunksGenerated` and a
status note, but no `recordsUpserted` and no errors list. -/
theorem trigger_status_values_cex :
    (runbookIngestionHttp oEmptyList).status = "success" ∧
    ¬((runbookIngestionHttp oEmptyList).status = "completed" ∨
      (runbookIngestionHttp oEmptyList).status = "completed_with_errors" ∨
      (runbookIngestionHttp oEmptyList).status = "failed") ∧
    runbookIngestionHttp oEmptyList =
      HttpResponse.mk 200 "success"
        "Ingestion completed successfully. Processed 0 files, generated 0 chunks, embedded 0 chunks."
        (some (RunResult.mk 0 0 none (some "No chunks generated"))) :=
  ⟨by rfl, by decide, by rfl⟩

end Ingestion
